import Mathlib

/-!
Verification of the hardware health monitor service and client
(`monitor_service.py`, `monitor_client.py`).

The Python code is shallowly embedded: Python floats are modelled as `ℚ`
(only order comparisons, addition and clamping occur in the code, all of
which are exact), the random draws of the simulator are passed in as
explicit parameters, and the periodic threads become explicit state
passing over lists of per-tick inputs.  The lock-protected interaction
between the simulation thread and concurrent readers is modelled as a
small-step labelled transition system in which the critical section of the
writer is split into its individual statements.
-/

namespace HealthMonitor

/-- The constant `TEMPERATURE_THRESHOLD = 85.0` of `monitor_service.py`. -/
def TEMPERATURE_THRESHOLD : ℚ := 85

/-- State owned by `HealthMonitorService`: the `_last_temp_reading` field. -/
structure MonitorState where
  last_temp_reading : ℚ
  deriving DecidableEq, Repr

/-- Initial monitor state: `HealthMonitorService.__init__` sets
`self._last_temp_reading = 0.0`. -/
def initMonitorState : MonitorState := ⟨0⟩

/-- One iteration of `HealthMonitorService._monitor_loop`, given the
temperature `temp` read from the simulator on this tick.  Returns the
payload of the `TemperatureThresholdExceeded` signal emitted on this tick
(`none` when no signal fires) together with the updated state.  Mirrors:

    if temp > TEMPERATURE_THRESHOLD and self._last_temp_reading <= TEMPERATURE_THRESHOLD:
        self.TemperatureThresholdExceeded(temp)
    self._last_temp_reading = temp
-/
def monitorStep (s : MonitorState) (temp : ℚ) : Option ℚ × MonitorState :=
  (if temp > TEMPERATURE_THRESHOLD ∧ s.last_temp_reading ≤ TEMPERATURE_THRESHOLD
     then some temp else none,
   ⟨temp⟩)

/-- The trace of signal emissions produced by running `_monitor_loop` over a
scripted sequence of temperature readings, one reading per tick. -/
def monitorEvents : MonitorState → List ℚ → List (Option ℚ)
  | _, [] => []
  | s, t :: ts => (monitorStep s t).1 :: monitorEvents (monitorStep s t).2 ts

/-- The monitor state after running `_monitor_loop` over a scripted sequence
of temperature readings. -/
def monitorStateAfter (s : MonitorState) (ts : List ℚ) : MonitorState :=
  ts.foldl (fun s t => (monitorStep s t).2) s

/-- The trace of signal emissions of `_monitor_loop` when each tick reads a
full `(temperature, voltage)` pair from `HardwareSimulator.get_sensor_data`.
Mirrors `temp, _ = self._simulator.get_sensor_data()`: the voltage component
is discarded. -/
def monitorEventsOnPairs : MonitorState → List (ℚ × ℚ) → List (Option ℚ)
  | _, [] => []
  | s, (t, _) :: rest =>
      (monitorStep s t).1 :: monitorEventsOnPairs (monitorStep s t).2 rest

/-- Rendering of the claim that at every point in the execution of the monitor,
the `last_temp_reading` field equals the temperature observed on the
previous evaluation tick: after `n` completed ticks of the scripted run
`ts`, there is a previous tick `i` (so `i + 1 = n`) whose observed reading
`ts[i]` equals the stored `last_temp_reading`. -/
def lastReadingMatchesPrevTick (ts : List ℚ) (n : ℕ) : Prop :=
  ∃ i, i + 1 = n ∧ ∃ h : i < ts.length,
    (monitorStateAfter initMonitorState (ts.take n)).last_temp_reading = ts.get ⟨i, h⟩

/-- Sensor state owned by `HardwareSimulator`: the `_temperature` and
`_voltage` fields. -/
structure SensorState where
  temperature : ℚ
  voltage : ℚ
  deriving DecidableEq, Repr

/-- Initial sensor state: `HardwareSimulator.__init__` sets
`self._temperature = 65.0` and `self._voltage = 1.1`. -/
def initSensorState : SensorState := ⟨65, 11/10⟩

/-- One iteration of the body of `HardwareSimulator._simulation_loop`, with
the random draws passed in explicitly: `d` is the `random.uniform(-0.5, 0.5)`
drift draw, `spikeRoll` is the `random.randint(0, 20)` roll, `sp` is the
`random.uniform(5, 15)` spike draw, and `v` is the `random.uniform(1.05, 1.15)`
voltage draw.  Mirrors:

    temp_drift = random.uniform(-0.5, 0.5)
    if random.randint(0, 20) == 5:
        temp_drift += random.uniform(5, 15)
    self._temperature += temp_drift
    self._temperature = max(50.0, min(95.0, self._temperature))
    self._voltage = random.uniform(1.05, 1.15)
-/
def simulationUpdate (s : SensorState) (d : ℚ) (spikeRoll : ℕ) (sp : ℚ) (v : ℚ) :
    SensorState :=
  let temp_drift := if spikeRoll = 5 then d + sp else d
  { temperature := max 50 (min 95 (s.temperature + temp_drift)),
    voltage := v }

/-! ### Small-step concurrency model of `HardwareSimulator`

`_simulation_loop` mutates `_temperature` and `_voltage` under `self._lock`
in several separate statements, while `get_sensor_data` reads the pair under
the same lock.  The model below splits the critical section of the writer into
its individual statements; a locked read is a single step enabled only when
the lock is free (a reader holding the lock excludes every writer statement,
and vice versa).  Ghost fields `tempTick` and `voltTick` record the update
tick that produced each stored component, so that a torn read would be
visible as `tempTick ≠ voltTick`. -/

/-- Program counter of the `_simulation_loop` thread inside one iteration. -/
inductive WriterPC
  | idle
  | acquired
  | addedDrift
  | clampedTemp
  | wroteVolt
  deriving DecidableEq, Repr

/-- Global state shared between the simulation thread and readers, with the
ghost tick counters. -/
structure SimState where
  temperature : ℚ
  voltage : ℚ
  tempTick : ℕ
  voltTick : ℕ
  lockHeld : Bool
  pc : WriterPC
  tick : ℕ
  deriving DecidableEq, Repr

/-- Initial shared state, from `HardwareSimulator.__init__`. -/
def initSimState : SimState :=
  { temperature := 65, voltage := 11/10, tempTick := 0, voltTick := 0,
    lockHeld := false, pc := .idle, tick := 0 }

/-- Observable labels: internal steps, and the `(temperature, voltage)` pair
returned by a call to `get_sensor_data`, tagged with the ghost ticks of the
two components. -/
inductive SimLabel
  | tau
  | readPair (temperature voltage : ℚ) (tempTick voltTick : ℕ)
  deriving DecidableEq, Repr

/-- Small-step transition relation for the simulator and its readers.
Writer steps follow the statements of `_simulation_loop`; `read` models a
complete `get_sensor_data` call, which acquires the lock, copies the pair
and releases the lock, so it is enabled only while no writer holds the
lock. -/
inductive SimStep : SimState → SimLabel → SimState → Prop
  | acquire (s : SimState) :
      s.pc = .idle → s.lockHeld = false →
      SimStep s .tau { s with lockHeld := true, pc := .acquired }
  | addDrift (s : SimState) (d : ℚ) (spikeRoll : ℕ) (sp : ℚ) :
      s.pc = .acquired →
      SimStep s .tau
        { s with temperature := s.temperature + (if spikeRoll = 5 then d + sp else d),
                 tempTick := s.tick + 1, pc := .addedDrift }
  | clampTemp (s : SimState) :
      s.pc = .addedDrift →
      SimStep s .tau
        { s with temperature := max 50 (min 95 s.temperature), pc := .clampedTemp }
  | writeVolt (s : SimState) (v : ℚ) :
      s.pc = .clampedTemp →
      SimStep s .tau { s with voltage := v, voltTick := s.tick + 1, pc := .wroteVolt }
  | release (s : SimState) :
      s.pc = .wroteVolt →
      SimStep s .tau { s with lockHeld := false, pc := .idle, tick := s.tick + 1 }
  | read (s : SimState) :
      s.lockHeld = false →
      SimStep s (.readPair s.temperature s.voltage s.tempTick s.voltTick) s

/-- States reachable from the initial simulator state by any interleaving of
writer statements and reads. -/
inductive SimReachable : SimState → Prop
  | init : SimReachable initSimState
  | step {s l s'} : SimReachable s → SimStep s l s' → SimReachable s'

/-- Inductive invariant of the simulator transition system: the lock is held
exactly while the writer is inside its critical section, and the ghost ticks
of the two components agree except strictly between the temperature write
and the voltage write. -/
def SimInv (s : SimState) : Prop :=
  match s.pc with
  | .idle => s.lockHeld = false ∧ s.tempTick = s.tick ∧ s.voltTick = s.tick
  | .acquired => s.lockHeld = true ∧ s.tempTick = s.tick ∧ s.voltTick = s.tick
  | .addedDrift => s.lockHeld = true ∧ s.tempTick = s.tick + 1 ∧ s.voltTick = s.tick
  | .clampedTemp => s.lockHeld = true ∧ s.tempTick = s.tick + 1 ∧ s.voltTick = s.tick
  | .wroteVolt => s.lockHeld = true ∧ s.tempTick = s.tick + 1 ∧ s.voltTick = s.tick + 1

/-! ### Client model (`monitor_client.py`) -/

/-- The flags of `HealthMonitorClient` relevant to its loops: `_running`
drives `_monitor_loop`, and `subscribed` records whether
`subscribe_to_signals` has attached the `TemperatureThresholdExceeded`
handler (the subscription is never detached anywhere in the code). -/
structure ClientState where
  running : Bool
  subscribed : Bool
  deriving DecidableEq, Repr

/-- One iteration body of `HealthMonitorClient._monitor_loop`, given the
outcome of the three property reads of this tick: `some (temp, volt, version)`
when they succeed, `none` when any of them raises.  Mirrors:

    try:
        temp = self.monitor_proxy.Temperature
        volt = self.monitor_proxy.Voltage
        version = self.monitor_proxy.Version
        logger.info(...)
    except Exception as e:
        logger.error(...)
        self._running = False
-/
def pollIteration (st : ClientState) (o : Option (ℚ × ℚ × String)) : ClientState :=
  match o with
  | some _ => st
  | none => { st with running := false }

/-- `HealthMonitorClient._monitor_loop` run against a scripted list of
per-tick read outcomes: iterates `pollIteration` while `running` holds,
returning the final client state together with the number of iterations the
loop actually executed. -/
def clientMonitorLoop (st : ClientState) : List (Option (ℚ × ℚ × String)) → ClientState × ℕ
  | [] => (st, 0)
  | o :: os =>
      if st.running then
        ((clientMonitorLoop (pollIteration st o) os).1,
         (clientMonitorLoop (pollIteration st o) os).2 + 1)
      else (st, 0)

/-- Error classes a client connection attempt can surface, following the
error taxonomy of the spec. -/
inductive ClientError
  | connectionError
  deriving DecidableEq, Repr

/-- `HealthMonitorClient.connect`, parametrised by whether the service is
reachable.  The body wraps `self.bus.get(...)` in `try/except`: on failure
it logs and returns `False`; no exception escapes.  The `Except` result type
records whether an error propagates to the caller — it never does. -/
def connect (reachable : Bool) : Except ClientError Bool :=
  if reachable then .ok true else .ok false

/-- Modelled from the spec: the contract sentence that `connect()` fails
with `ConnectionError` if the service is unreachable, i.e. the failure
propagates to the caller as an exceptional result rather than a return
value. -/
def connectSpec (reachable : Bool) : Except ClientError Bool :=
  if reachable then .ok true else .error .connectionError

/-- The startup path of `HealthMonitorClient.run`, parametrised by service
reachability: returns `some code` when the process exits with status `code`
before reaching the main loop, `none` when startup succeeds and the GLib
main loop is entered.  Mirrors:

    if not self.connect():
        sys.exit(1)
-/
def runStartup (reachable : Bool) : Option ℕ :=
  match connect reachable with
  | .ok true => none
  | .ok false => some 1
  | .error _ => some 1

/-! ### Helper lemmas -/

/-- Running `_monitor_loop` from a state whose stored reading is already
above the threshold over readings that all stay above the threshold emits
no event on any tick. -/
theorem monitorEvents_sustained_above (s : MonitorState) (ts : List ℚ)
    (hs : TEMPERATURE_THRESHOLD < s.last_temp_reading)
    (hts : ∀ u ∈ ts, TEMPERATURE_THRESHOLD < u) :
    monitorEvents s ts = List.replicate ts.length none := by
  induction ts generalizing s with
  | nil => rfl
  | cons t ts ih =>
    have ht : TEMPERATURE_THRESHOLD < t := hts t (by simp)
    have hfire : (monitorStep s t).1 = none := by
      have hcond : ¬ (t > TEMPERATURE_THRESHOLD ∧
          s.last_temp_reading ≤ TEMPERATURE_THRESHOLD) := by
        rintro ⟨-, hle⟩
        exact absurd hs (not_lt.2 hle)
      simp [monitorStep, hcond]
    rw [monitorEvents, hfire, List.length_cons, List.replicate_succ]
    exact congrArg _ (ih ⟨t⟩ ht fun u hu => hts u (by simp [hu]))

/-- The state update of `_monitor_loop` is unconditional: after a tick with
reading `t`, the stored reading is `t`. -/
theorem monitorStep_snd (s : MonitorState) (t : ℚ) : (monitorStep s t).2 = ⟨t⟩ := rfl

/-- After running `_monitor_loop` over the first `i + 1` readings of a
script, the stored reading is exactly the reading of tick `i + 1`. -/
theorem monitorStateAfter_take (ts : List ℚ) :
    ∀ (i : ℕ) (h : i < ts.length) (s : MonitorState),
      (monitorStateAfter s (ts.take (i + 1))).last_temp_reading = ts.get ⟨i, h⟩ := by
  induction ts with
  | nil => intro i h; simp at h
  | cons t ts ih =>
    intro i h s
    cases i with
    | zero => rfl
    | succ i =>
      have : (t :: ts).take (i + 2) = t :: ts.take (i + 1) := rfl
      rw [this]
      show (monitorStateAfter ⟨t⟩ (ts.take (i + 1))).last_temp_reading = _
      exact ih i (Nat.lt_of_succ_lt_succ h) ⟨t⟩

/-- A client poll loop whose `_running` flag is already `False` performs no
iteration at all. -/
theorem clientMonitorLoop_not_running (st : ClientState)
    (os : List (Option (ℚ × ℚ × String))) (h : st.running = false) :
    clientMonitorLoop st os = (st, 0) := by
  cases os <;> simp [clientMonitorLoop, h]

/-- The invariant holds initially. -/
theorem simInv_init : SimInv initSimState := by
  simp [SimInv, initSimState]

/-- The invariant is preserved by every step of the simulator transition
system. -/
theorem simInv_step {s : SimState} {l : SimLabel} {s' : SimState}
    (hinv : SimInv s) (hs : SimStep s l s') : SimInv s' := by
  cases hs with
  | acquire hpc hlock =>
    simp only [SimInv, hpc] at hinv
    simp only [SimInv]
    exact ⟨True.intro, hinv.2.1, hinv.2.2⟩
  | addDrift d spikeRoll sp hpc =>
    simp only [SimInv, hpc] at hinv
    simp only [SimInv]
    exact ⟨hinv.1, True.intro, hinv.2.2⟩
  | clampTemp hpc =>
    simp only [SimInv, hpc] at hinv
    simp only [SimInv]
    exact hinv
  | writeVolt v hpc =>
    simp only [SimInv, hpc] at hinv
    simp only [SimInv]
    exact ⟨hinv.1, hinv.2.1, True.intro⟩
  | release hpc =>
    simp only [SimInv, hpc] at hinv
    simp only [SimInv]
    exact ⟨True.intro, hinv.2.1, hinv.2.2⟩
  | read hlock =>
    exact hinv

/-- Every reachable state of the simulator transition system satisfies the
invariant. -/
theorem simReachable_inv {s : SimState} (h : SimReachable s) : SimInv s := by
  induction h with
  | init => exact simInv_init
  | step _ hs ih => exact simInv_step ih hs

/-- The emission side of a monitor tick, written as a single conditional on
the rising-edge condition. -/
theorem monitorStep_fst (s : MonitorState) (t : ℚ) :
    (monitorStep s t).1 =
      if s.last_temp_reading ≤ TEMPERATURE_THRESHOLD ∧ TEMPERATURE_THRESHOLD < t
      then some t else none := by
  simp only [monitorStep, gt_iff_lt]
  by_cases h1 : s.last_temp_reading ≤ TEMPERATURE_THRESHOLD <;>
    by_cases h2 : TEMPERATURE_THRESHOLD < t <;> simp [h1, h2]

/-! ### Claim theorems -/

/-- Claim C1: on every evaluation tick of `_monitor_loop`, a
`TemperatureThresholdExceeded` event (carrying the current temperature) is
emitted exactly when the previously observed temperature is at most 85.0
and the current one is strictly above 85.0; while the temperature stays
above 85.0 across consecutive ticks, no further event is emitted. -/
theorem thresholdEvent_exactly_on_rising_edge (s : MonitorState) (t : ℚ) :
    ((monitorStep s t).1 = some t ↔
      s.last_temp_reading ≤ TEMPERATURE_THRESHOLD ∧ TEMPERATURE_THRESHOLD < t) ∧
    ((monitorStep s t).1 ≠ none ↔
      s.last_temp_reading ≤ TEMPERATURE_THRESHOLD ∧ TEMPERATURE_THRESHOLD < t) ∧
    (TEMPERATURE_THRESHOLD < t →
      ∀ ts : List ℚ, (∀ u ∈ ts, TEMPERATURE_THRESHOLD < u) →
        monitorEvents (monitorStep s t).2 ts = List.replicate ts.length none) := by
  refine ⟨?_, ?_, ?_⟩
  · rw [monitorStep_fst]; split <;> simp_all
  · rw [monitorStep_fst]; split <;> simp_all
  · intro ht ts hts
    exact monitorEvents_sustained_above _ ts (by rw [monitorStep_snd]; exact ht) hts

/-- Witness for C1 at a concrete rising edge followed by two sustained
readings above threshold. -/
theorem thresholdEvent_exactly_on_rising_edge_witness :
    (monitorStep ⟨80⟩ 90).1 = some 90 ∧
      monitorEvents (monitorStep ⟨80⟩ 90).2 [88, 91] = List.replicate 2 none :=
  ⟨(thresholdEvent_exactly_on_rising_edge ⟨80⟩ 90).1.mpr (by decide),
   (thresholdEvent_exactly_on_rising_edge ⟨80⟩ 90).2.2 (by decide) [88, 91] (by decide)⟩

/-- Claim C2: fed the scripted reading sequence
`[80, 83, 86, 90, 84, 87, 82]` one reading per tick with threshold 85.0,
the monitor fires exactly two events — at the 83→86 transition and at the
84→87 transition — and no event at any other step. -/
theorem scripted_sequence_two_events :
    monitorEvents initMonitorState [80, 83, 86, 90, 84, 87, 82] =
      [none, none, some 86, none, none, some 87, none] := by
  decide

/-- Claim C3: after every `update()` step of the sensor source, regardless
of the drift and spike values drawn, the stored temperature lies in
`[50.0, 95.0]`; the stored voltage is whatever `random.uniform(1.05, 1.15)`
returned on this tick, hence lies in `[1.05, 1.15]`. -/
theorem simulationUpdate_in_range (s : SensorState) (d : ℚ) (spikeRoll : ℕ)
    (sp : ℚ) (v : ℚ) (hv1 : 21/20 ≤ v) (hv2 : v ≤ 23/20) :
    50 ≤ (simulationUpdate s d spikeRoll sp v).temperature ∧
    (simulationUpdate s d spikeRoll sp v).temperature ≤ 95 ∧
    21/20 ≤ (simulationUpdate s d spikeRoll sp v).voltage ∧
    (simulationUpdate s d spikeRoll sp v).voltage ≤ 23/20 := by
  refine ⟨le_max_left _ _, max_le (by norm_num) (min_le_left _ _), hv1, hv2⟩

/-- Witness for C3 at a concrete state and concrete random draws, spike
included. -/
theorem simulationUpdate_in_range_witness :
    50 ≤ (simulationUpdate initSensorState (1/2) 5 12 (11/10)).temperature ∧
    (simulationUpdate initSensorState (1/2) 5 12 (11/10)).temperature ≤ 95 ∧
    21/20 ≤ (simulationUpdate initSensorState (1/2) 5 12 (11/10)).voltage ∧
    (simulationUpdate initSensorState (1/2) 5 12 (11/10)).voltage ≤ 23/20 :=
  simulationUpdate_in_range initSensorState (1/2) 5 12 (11/10)
    (by norm_num) (by norm_num)

/-- Claim C4: a reading exactly equal to the threshold 85.0 never counts as
exceeding it on either side of the comparison — a current reading of 85.0
never fires whatever the previous reading was, `previous = 85.0` with
`current = 85.0` fires no event, and `previous = 85.0` with
`current = 85.1` fires the event. -/
theorem threshold_equality_boundary :
    (∀ s : MonitorState, (monitorStep s TEMPERATURE_THRESHOLD).1 = none) ∧
    (monitorStep ⟨85⟩ 85).1 = none ∧
    (monitorStep ⟨85⟩ (851/10)).1 = some (851/10) := by
  refine ⟨fun s => ?_, by decide, by rw [monitorStep_fst]; norm_num [TEMPERATURE_THRESHOLD]⟩
  simp [monitorStep]

/-- Claim C5: the evaluation step is idempotent for a repeated reading —
for every monitor state and temperature `x`, the second of two consecutive
evaluations of the same reading `x` never fires, so the two evaluations
fire at most one event in total. -/
theorem monitorStep_no_duplicate_on_repeat (s : MonitorState) (x : ℚ) :
    (monitorStep (monitorStep s x).2 x).1 = none ∧
    (monitorStep s x).1.toList.length +
      (monitorStep (monitorStep s x).2 x).1.toList.length ≤ 1 := by
  have hc : ¬ (x > TEMPERATURE_THRESHOLD ∧ x ≤ TEMPERATURE_THRESHOLD) :=
    fun h => absurd h.1 (not_lt.2 h.2)
  have h2 : (monitorStep (monitorStep s x).2 x).1 = none := by
    rw [monitorStep_snd]
    simp [monitorStep, hc]
  refine ⟨h2, ?_⟩
  rw [h2]
  cases (monitorStep s x).1 <;> simp

/-- Claim C6 (counterexample): before the first evaluation tick there is no
previous tick, so `last_temp_reading` cannot equal a previously observed
temperature — with script `[90]` and `n = 0` completed ticks the claimed
invariant fails (the field holds the initial `0.0`, never observed). -/
theorem lastReading_before_first_tick_counterexample :
    ¬ lastReadingMatchesPrevTick [90] 0 := by
  rintro ⟨i, hi, -⟩
  exact Nat.succ_ne_zero i hi

/-- Claim C6 (amended): after every completed evaluation tick,
`last_temp_reading` equals the temperature observed on that most recent
tick — the previous tick from the viewpoint of the next evaluation — while
before the first tick completes it holds the initial sentinel `0.0`, which
is not an observed reading. -/
theorem lastReading_equals_prev_tick (ts : List ℚ) :
    (monitorStateAfter initMonitorState (ts.take 0)).last_temp_reading = 0 ∧
    ∀ n, 1 ≤ n → n ≤ ts.length → lastReadingMatchesPrevTick ts n := by
  refine ⟨rfl, ?_⟩
  intro n h1 h2
  obtain ⟨i, rfl⟩ : ∃ i, n = i + 1 := ⟨n - 1, (Nat.succ_pred_eq_of_pos h1).symm⟩
  exact ⟨i, rfl, Nat.lt_of_succ_le h2,
    monitorStateAfter_take ts i (Nat.lt_of_succ_le h2) initMonitorState⟩

/-- Witness for the amended C6 on a concrete one-reading script after its
first tick. -/
theorem lastReading_equals_prev_tick_witness : lastReadingMatchesPrevTick [7] 1 :=
  (lastReading_equals_prev_tick [7]).2 1 (by decide) (by decide)

/-- Claim C7: if a property read in the poll loop of the client fails, the
loop clears its `_running` flag and stops after that iteration, having
performed exactly the successful iterations plus the failing one, while the
signal subscription stays attached. -/
theorem poll_failure_stops_loop_keeps_subscription (st : ClientState)
    (oks rest : List (Option (ℚ × ℚ × String)))
    (hrun : st.running = true) (hsub : st.subscribed = true)
    (hoks : ∀ o ∈ oks, o.isSome) :
    (clientMonitorLoop st (oks ++ none :: rest)).1.running = false ∧
    (clientMonitorLoop st (oks ++ none :: rest)).1.subscribed = true ∧
    (clientMonitorLoop st (oks ++ none :: rest)).2 = oks.length + 1 := by
  revert hrun hsub hoks
  induction oks generalizing st with
  | nil =>
    intro hrun hsub hoks
    rw [List.nil_append, clientMonitorLoop, if_pos hrun]
    rw [show pollIteration st none = { st with running := false } from rfl]
    rw [clientMonitorLoop_not_running _ rest rfl]
    exact ⟨rfl, hsub, rfl⟩
  | cons o oks ih =>
    intro hrun hsub hoks
    obtain ⟨x, rfl⟩ :=
      Option.isSome_iff_exists.mp (hoks o (List.mem_cons_self o oks))
    have ihx := ih st hrun hsub fun o ho => hoks o (List.mem_cons_of_mem _ ho)
    rw [List.cons_append, clientMonitorLoop, if_pos hrun,
      show pollIteration st (some x) = st from rfl]
    exact ⟨ihx.1, ihx.2.1, by rw [ihx.2.2, List.length_cons]⟩

/-- Witness for C7: one successful poll followed by a failing one. -/
theorem poll_failure_stops_loop_keeps_subscription_witness :
    (clientMonitorLoop ⟨true, true⟩
        ([some (70, 11/10, "1.0.0-prototype")] ++ none :: [])).1.running = false ∧
    (clientMonitorLoop ⟨true, true⟩
        ([some (70, 11/10, "1.0.0-prototype")] ++ none :: [])).1.subscribed = true ∧
    (clientMonitorLoop ⟨true, true⟩
        ([some (70, 11/10, "1.0.0-prototype")] ++ none :: [])).2 =
      [some ((70 : ℚ), (11/10 : ℚ), "1.0.0-prototype")].length + 1 :=
  poll_failure_stops_loop_keeps_subscription ⟨true, true⟩ _ _ rfl rfl (by decide)

/-- Claim C8: `get_sensor_data` is atomic — in every reachable state of the
lock-interleaved simulator model, the pair a read observes carries matching
ghost ticks, so it never mixes the temperature of one update tick with the
voltage of another. -/
theorem get_sensor_data_atomic {s s' : SimState} {t v : ℚ} {tt vt : ℕ}
    (hr : SimReachable s) (hstep : SimStep s (.readPair t v tt vt) s') :
    tt = vt := by
  have hinv := simReachable_inv hr
  cases hstep with
  | read hlock =>
    cases hpc : s.pc with
    | idle =>
      simp only [SimInv, hpc] at hinv
      exact hinv.2.1.trans hinv.2.2.symm
    | acquired =>
      simp only [SimInv, hpc] at hinv
      simp [hlock] at hinv
    | addedDrift =>
      simp only [SimInv, hpc] at hinv
      simp [hlock] at hinv
    | clampedTemp =>
      simp only [SimInv, hpc] at hinv
      simp [hlock] at hinv
    | wroteVolt =>
      simp only [SimInv, hpc] at hinv
      simp [hlock] at hinv

/-- Witness for C8: a read in the initial state. -/
theorem get_sensor_data_atomic_witness :
    initSimState.tempTick = initSimState.voltTick :=
  get_sensor_data_atomic SimReachable.init (SimStep.read initSimState rfl)

/-- Claim C9 (counterexample): with the service unreachable, `connect` does
not fail with a `ConnectionError` — it catches the underlying exception,
logs it and returns the ordinary value `False`, differing from the
spec-modelled `connectSpec` at `reachable = false`. -/
theorem connect_returns_false_counterexample :
    connect false = .ok false ∧ connect false ≠ connectSpec false := by
  refine ⟨rfl, fun h => ?_⟩
  simp [connect, connectSpec] at h

/-- Claim C9 (amended): when the service is unreachable, `connect` catches
the failure, logs it and returns `False` rather than raising
`ConnectionError`; `run` treats that return as fatal and the process exits
with the non-zero status 1, whereas a reachable service lets startup
proceed into the main loop. -/
theorem unreachable_startup_exits_nonzero :
    connect false = .ok false ∧ runStartup false = some 1 ∧ (1 : ℕ) ≠ 0 ∧
      runStartup true = none :=
  ⟨rfl, rfl, one_ne_zero, rfl⟩

/-- Claim C10: whether an event fires on a tick, and its payload, depend
only on the temperature component of the sensor data — two runs whose
per-tick temperatures agree produce identical event traces however their
voltages differ. -/
theorem events_independent_of_voltage (s : MonitorState) (xs ys : List (ℚ × ℚ))
    (h : xs.map Prod.fst = ys.map Prod.fst) :
    monitorEventsOnPairs s xs = monitorEventsOnPairs s ys := by
  induction xs generalizing s ys with
  | nil =>
    cases ys with
    | nil => rfl
    | cons y ys => simp at h
  | cons x xs ih =>
    cases ys with
    | nil => simp at h
    | cons y ys =>
      obtain ⟨x1, x2⟩ := x
      obtain ⟨y1, y2⟩ := y
      simp only [List.map_cons, List.cons.injEq] at h
      obtain ⟨h1, h2⟩ := h
      subst h1
      simp only [monitorEventsOnPairs]
      exact congrArg _ (ih _ _ h2)

/-- Witness for C10: same temperature, two different voltages. -/
theorem events_independent_of_voltage_witness :
    monitorEventsOnPairs initMonitorState [(90, 21/20)] =
      monitorEventsOnPairs initMonitorState [(90, 23/20)] :=
  events_independent_of_voltage initMonitorState _ _ (by decide)

end HealthMonitor
